import Mathlib

/-!
# Verification of the CDFLM-WASM discrete PSO engine (src/src/wasm/include/NDPSO.cpp)

This file gives a shallow embedding of the NDPSO optimizer and its parameter
sweep, and proves the frozen claims about it.

Embedding conventions:
* The external collaborators (`Particle`, `AssignmentStrategy`,
  `ObjectiveStrategy`) are abstracted as function parameters bundled in `Ext`;
  their contracts, where a claim needs them, come from the spec (§6) and are
  stated as hypotheses or definitions marked "Modelled from the spec".
* C++ `float`/`double` arithmetic in the sweep loop of `searchParameters` is
  modelled exactly, as round-to-nearest-even on dyadic rationals (`Dy`),
  because the loop bound `c <= 0.9` depends on it.  The optimizer-internal
  numeric state (inertia and its discount) is modelled with exact rationals;
  the claims about it are order-of-operations claims, stated exactly.
* `clock()`-based wall-clock timing is not modelled (real time); the
  `ProblemResults` record omits the elapsed-time field.
* The `listener` is a fire-and-forget sink the engine never reads from (§6);
  its notifications carry no engine state and are not modelled.
-/

namespace NDPSO

/-- Objective direction, from the `ObjType` enum used by `NDPSO.cpp`
(`MINIMIZE`/`MAXIMIZE` switch cases).  The third constructor stands for any
enum value other than the two recognized ones: the `switch` in
`NDPSO::getGlobalBest` has a `default:` branch for exactly that case. -/
inductive ObjType where
  | MINIMIZE
  | MAXIMIZE
  | UNRECOGNIZED
deriving DecidableEq, Repr

/-- Modelled from the spec: the problem-variant tag `ProblemType` (§3:
"`type` (problem variant, e.g. capacitated/uncapacitated)"); its header is not
under src/.  An abstract tag type with (at least) two distinct values. -/
inductive PType where
  | typeA
  | typeB
deriving DecidableEq, Repr

/-- A particle as NDPSO.cpp sees it: a position vector and a fitness value
(`minFitness` compares `fitness`; positions are `vector<int>`).  Per the
comment at `NDPSO::calcObjective`, particles do not cache customer
assignments. -/
structure Particle where
  position : List ℤ
  fitness : ℤ
deriving DecidableEq, Repr

/-- The immutable problem input (§3 ProblemData). -/
structure ProblemData where
  costs : List (List ℤ)
  numFacilities : ℕ
  numCustomers : ℕ
  type : PType
  objType : ObjType
  name : String
deriving DecidableEq, Repr

/-! ## Exact model of the IEEE float/double arithmetic in `searchParameters`

The sweep loops are `for (float c = 0.1; c <= 0.9; c += 0.2)`: the literals
are doubles, the accumulator is a float, so each step is
"round₆₄(c + 0.2) then round₃₂ to assign", and the bound compares the float
value (exactly) against the double `0.9`.  All values involved are dyadic
rationals, represented as `m * 2^e`. -/

/-- Computes `2 ^ n` on `ℤ`, by structural recursion (kernel-reducible). -/
def tpow : ℕ → ℤ
  | 0 => 1
  | n + 1 => 2 * tpow n

/-- Number of binary digits of `n` (0 for 0), with explicit fuel. -/
def bitLen : ℕ → ℕ → ℕ
  | 0, _ => 0
  | f + 1, n => if n = 0 then 0 else bitLen f (n / 2) + 1

/-- A dyadic rational `m * 2^e`. -/
structure Dy where
  m : ℤ
  e : ℤ
deriving DecidableEq, Repr

/-- Exact sum of two dyadic rationals (aligning exponents). -/
def dyAdd (a b : Dy) : Dy :=
  let e := min a.e b.e
  ⟨a.m * tpow (a.e - e).toNat + b.m * tpow (b.e - e).toNat, e⟩

/-- Exact comparison `a ≤ b` of dyadic rationals. -/
def dyLe (a b : Dy) : Bool :=
  let e := min a.e b.e
  decide (a.m * tpow (a.e - e).toNat ≤ b.m * tpow (b.e - e).toNat)

/-- Round a dyadic rational to `p` significant bits, ties to even: the IEEE
round-to-nearest on a binary format with a `p`-bit significand (exponent range
is irrelevant for the tiny values in the sweep loop). -/
def roundDy (p : ℕ) (x : Dy) : Dy :=
  let n := x.m.natAbs
  let L := bitLen 128 n
  if L ≤ p then x
  else
    let k := L - p
    let twok := (tpow k).toNat
    let q := n / twok
    let r := n % twok
    let half := (tpow (k - 1)).toNat
    let q' := if r < half then q else if half < r then q + 1
              else if q % 2 = 0 then q else q + 1
    ⟨if x.m < 0 then -(q' : ℤ) else (q' : ℤ), x.e + (k : ℤ)⟩

/-- Round to IEEE binary32 (a C++ `float` assignment). -/
def f32 (x : Dy) : Dy := roundDy 24 x

/-- Round to IEEE binary64 (a C++ `double` operation result). -/
def f64 (x : Dy) : Dy := roundDy 53 x

/-- Computes `n * 2^k / d` as a fraction of naturals, for `k : ℤ`. -/
def scaled (n d : ℕ) (k : ℤ) : ℕ × ℕ :=
  if 0 ≤ k then (n * (tpow k.toNat).toNat, d) else (n, d * (tpow (-k).toNat).toNat)

/-- Round the positive rational `n / d` to the nearest (ties-even) dyadic with
`p` significant bits: the value of a C++ decimal literal in a binary format
with a `p`-bit significand.  The scaling exponent is found by a bounded search
around the bit-length estimate. -/
def roundPosRat (p n d : ℕ) : Dy :=
  let k0 : ℤ := (p : ℤ) + (bitLen 128 d : ℤ) - (bitLen 128 n : ℤ)
  let fits : ℤ → Bool := fun k =>
    let s := scaled n d k
    decide (s.2 * (tpow (p - 1)).toNat ≤ s.1 ∧ s.1 < s.2 * (tpow p).toNat)
  let k := (([k0 - 2, k0 - 1, k0, k0 + 1, k0 + 2].filter fits).headD k0)
  let s := scaled n d k
  let q := s.1 / s.2
  let r := s.1 % s.2
  let q' := if 2 * r < s.2 then q else if s.2 < 2 * r then q + 1
            else if q % 2 = 0 then q else q + 1
  ⟨(q' : ℤ), -k⟩

/-- The C++ double literal `0.1`. -/
def d01 : Dy := roundPosRat 53 1 10

/-- The C++ double literal `0.2`. -/
def d02 : Dy := roundPosRat 53 2 10

/-- The C++ double literal `0.9`. -/
def d09 : Dy := roundPosRat 53 9 10

/-- One axis of `NDPSO::searchParameters`:
`for (float c = 0.1; c <= 0.9; c += 0.2)` — emit the values `c` takes.
The float `c` is exact as a double, so the loop test compares exactly;
the increment is a double add rounded to double, then assigned to the float
(rounded to binary32).  Fuel bounds the unrolling; 100 is ample. -/
def axisLoop : ℕ → Dy → List Dy
  | 0, _ => []
  | fuel + 1, c =>
    if dyLe c d09 then c :: axisLoop fuel (f32 (f64 (dyAdd c d02))) else []

/-- The values each of the three coefficient loops in `searchParameters`
actually iterates over, starting from `float c = 0.1`. -/
def axisVals : List Dy := axisLoop 100 (f32 d01)

/-- Remove trailing zero bits of the mantissa (canonical form of a dyadic),
with fuel. -/
def normAux : ℕ → ℤ → ℤ → Dy
  | 0, m, e => ⟨m, e⟩
  | f + 1, m, e => if m ≠ 0 ∧ m % 2 = 0 then normAux f (m / 2) (e + 1) else ⟨m, e⟩

/-- Canonical representation of a dyadic rational: two `Dy` denote the same
rational iff their `normDy` images are equal (for the bounded mantissas used
here). -/
def normDy (x : Dy) : Dy := normAux 256 x.m x.e

/-- The sequence of `(inertia, cognitive, social)` coefficient triples in
effect at each successive `optimize` invocation made by
`NDPSO::searchParameters`: the three nested coefficient loops (`setInertia`,
`setCognitive`, `setSocial` record the loop variable), each triple followed by
the 10-trial inner loop (`for (int i = 0; i < 10; i++)` around
`this->optimize(data)`). -/
def searchParametersTrace : List (Dy × Dy × Dy) :=
  axisVals.flatMap fun c1 =>
    axisVals.flatMap fun c2 =>
      axisVals.flatMap fun c3 =>
        List.replicate 10 (c1, c2, c3)

/-- The float32 value of the C++ literal `n/d` (single rounding): the intended
grid point set is {0.1f, 0.3f, 0.5f, 0.7f, 0.9f}. -/
def flLit32 (n d : ℕ) : Dy := roundPosRat 24 n d

/-- The five intended axis values: the binary32 roundings of the decimals
0.1, 0.3, 0.5, 0.7, 0.9 — defined directly from the decimals, independently of
the loop in `axisVals`. -/
def vals5 : List Dy := [flLit32 1 10, flLit32 3 10, flLit32 5 10, flLit32 7 10, flLit32 9 10]

/-- The 125-point coefficient grid built from the intended axis values, in
loop order (inertia outermost, social innermost). -/
def grid125 : List (Dy × Dy × Dy) :=
  vals5.flatMap fun a => vals5.flatMap fun b => vals5.map fun c => (a, b, c)

/-- Canonicalize a coefficient triple. -/
def norm3 (t : Dy × Dy × Dy) : Dy × Dy × Dy :=
  (normDy t.1, normDy t.2.1, normDy t.2.2)

/-! ## Global-best selection (`NDPSO::getGlobalBest`) -/

/-- What `NDPSO::getGlobalBest` can signal instead of a particle.
`configError` models the C++ `throw` of a message string (the `default:`
branch of the `switch`).  `pastTheEndDeref` models `*min_element(b, e)` /
`*max_element(b, e)` on an empty range: the algorithm returns the past-the-end
iterator and dereferencing it is undefined behavior — no check, no throw. -/
inductive GBErr where
  | configError (msg : String)
  | pastTheEndDeref
deriving DecidableEq, Repr

/-- The `minFitness` functional object: `left.fitness < right.fitness`. -/
def minFitness (left right : Particle) : Bool :=
  decide (left.fitness < right.fitness)

/-- Model of `std::min_element(first, last, comp)` on a list: start from the first
element and replace the current best by `y` exactly when `comp y best`;
`none` is the past-the-end iterator of an empty range.  (`std::max_element`
is `selBy (fun y b => comp b y)`: it replaces the current best exactly when
`comp best y`.)  Both return the FIRST extremal element. -/
def selBy (better : Particle → Particle → Bool) : List Particle → Option Particle
  | [] => none
  | x :: xs => some (xs.foldl (fun best y => if better y best then y else best) x)

/-- Model of `NDPSO::getGlobalBest`: switch on the objective type, then scan the swarm
with `std::min_element` / `std::max_element` under `minFitness`; an
unrecognized objective type throws. -/
def getGlobalBest (t : ObjType) (swarm : List Particle) : Except GBErr Particle :=
  match t with
  | .MINIMIZE =>
    match selBy (fun y b => minFitness y b) swarm with
    | some p => .ok p
    | none => .error .pastTheEndDeref
  | .MAXIMIZE =>
    match selBy (fun y b => minFitness b y) swarm with
    | some p => .ok p
    | none => .error .pastTheEndDeref
  | .UNRECOGNIZED =>
    .error (.configError "NDPSO::getGlobalBest(): unrecognized this->data.objType!")

/-- Modelled from the spec: the `Comparator` (§4.1, its class is not under
src/): "for MINIMIZE, true iff `fitnessA < fitnessB`; for MAXIMIZE, true iff
`fitnessA > fitnessB`".  On an unrecognized type the reference comparator
raises a configuration error; inside `optimize` it is only reached for
MINIMIZE/MAXIMIZE because `getGlobalBest` raises first, so that case is
modelled as `false` (it is provably unreachable there). -/
def prefers : ObjType → ℤ → ℤ → Bool
  | .MINIMIZE, a, b => decide (a < b)
  | .MAXIMIZE, a, b => decide (a > b)
  | .UNRECOGNIZED, _, _ => false

/-! ## The optimizer (`NDPSO::optimize`, `NDPSO::initSwarm`,
`NDPSO::calcObjective`) -/

/-- The external collaborators consumed by the engine (spec §6), abstracted as
functions.  `upd` models `Particle::update(gBest)`: it receives the iteration
number and particle index (standing for the random source), the optimizer's
current inertia (the spec contract: "mutates position/fitness using social,
cognitive, and current inertia coefficients read from the owning optimizer
context"), the global-best snapshot, and the particle.  `mk` models the
`Particle(numDimensions, possibleFacs, this)` constructor at a given swarm
index.  `assignS` and `objS` model `AssignmentStrategy::assign` and
`ObjectiveStrategy::calcObjective` with the argument shapes of their call
sites in NDPSO.cpp. -/
structure Externals where
  upd : ℕ → ℕ → ℚ → Particle → Particle → Particle
  mkP : ℕ → ℕ → ℕ → Particle
  assignS : List (List ℤ) → List ℤ → PType → List ℤ
  objS : List (List ℤ) → List ℤ → PType → ℤ

/-- The optimizer configuration fields that `optimize` never writes
(`social`, `cognitive`, `initialInertia`, `inertialDiscount`, `swarmSize`,
`maxIterations` — C++ `int`s modelled as `ℤ`). -/
structure Cfg where
  social : ℚ
  cognitive : ℚ
  initialInertia : ℚ
  inertialDiscount : ℚ
  swarmSize : ℤ
  maxIterations : ℤ

/-- The NDPSO object state mutated across `optimize` calls: the swarm left by
the previous run and the (possibly already discounted) current inertia. -/
structure NDState where
  swarm : List Particle
  inertia : ℚ

/-- The loop state of one `optimize` run: the swarm, the current inertia,
the per-iteration global best `gBest`, and the all-time best `uBest`. -/
structure IterState where
  swarm : List Particle
  inertia : ℚ
  gBest : Particle
  uBest : Particle

/-- Map a function receiving the element index over a list, starting at index
`i` (structural recursion; the index stands for the iteration order of the
`for (Particle &particle : this->swarm)` loop). -/
def mapWithIdx (f : ℕ → Particle → Particle) : ℕ → List Particle → List Particle
  | _, [] => []
  | i, x :: xs => f i x :: mapWithIdx f (i + 1) xs

/-- One iteration of the `for (int count = 1; ...)` loop in
`NDPSO::optimize`, at iteration number `k`:
`inertia *= inertialDiscount` first, then every particle's
`update(gBest)` against the same `gBest` snapshot, then `gBest` is
recomputed, then `uBest` is replaced when the comparator prefers the new
`gBest.fitness`. -/
def stepIter (ext : Externals) (t : ObjType) (disc : ℚ) (k : ℕ) (s : IterState) :
    Except GBErr IterState :=
  let w := s.inertia * disc
  let sw := mapWithIdx (fun j p => ext.upd k j w s.gBest p) 0 s.swarm
  match getGlobalBest t sw with
  | .ok g => .ok ⟨sw, w, g, if prefers t g.fitness s.uBest.fitness then g else s.uBest⟩
  | .error e => .error e

/-- The first `n` iterations of the `optimize` loop from state `s0`
(iteration numbers `1..n`, as in `count = 1..maxIterations`). -/
def afterIters (ext : Externals) (t : ObjType) (disc : ℚ) (s0 : IterState) :
    ℕ → Except GBErr IterState
  | 0 => .ok s0
  | k + 1 =>
    match afterIters ext t disc s0 k with
    | .ok s => stepIter ext t disc (k + 1) s
    | .error e => .error e

/-- Model of `NDPSO::initSwarm`: clear any particles left from a previous run
(`if (this->swarm.size() > 0) this->swarm.clear()`), then push `swarmSize`
particles `Particle(numFacilities, numCustomers, this)`. -/
def initSwarm (ext : Externals) (cfg : Cfg) (d : ProblemData) (old : List Particle) :
    List Particle :=
  let cleared := if 0 < old.length then ([] : List Particle) else old
  cleared ++ (List.range cfg.swarmSize.toNat).map (ext.mkP d.numFacilities d.numCustomers)

/-- The setup phase of `NDPSO::optimize`: bind the data, initialize the swarm,
take the initial global best as both `gBest` and `uBest`, and reset
`this->inertia = this->initialInertia`. -/
def startState (ext : Externals) (cfg : Cfg) (d : ProblemData) (st : NDState) :
    Except GBErr IterState :=
  let sw := initSwarm ext cfg d st.swarm
  match getGlobalBest d.objType sw with
  | .ok g => .ok ⟨sw, cfg.initialInertia, g, g⟩
  | .error e => .error e

/-- The `ProblemResults` record returned by `optimize` (§3).  The elapsed
wall-clock time field is not modelled (real time). -/
structure ProblemResults where
  fitness : ℤ
  position : List ℤ
  customerAssignments : List ℤ
  type : PType
  objType : ObjType
deriving DecidableEq, Repr

/-- Modelled from the spec: `Particle::getCustomerAssignments()`
(Particle.h is not under src/).  Per §3/§6 and the comment at the result
packaging in `NDPSO::optimize` ("customer assignments are calculated
deterministically ... we can recalculate them"), it recomputes the
deterministic assignment for the particle's position via the assignment
strategy. -/
def getCustomerAssignments (ext : Externals) (d : ProblemData) (p : Particle) : List ℤ :=
  ext.assignS d.costs p.position d.type

/-- Model of `NDPSO::optimize`: setup, `maxIterations` loop iterations, then package
`uBest` into a `ProblemResults`.  Returns the results together with the
NDPSO object state (swarm, inertia) left behind for the next call. -/
def optimize (ext : Externals) (cfg : Cfg) (st : NDState) (d : ProblemData) :
    Except GBErr (ProblemResults × NDState) :=
  match startState ext cfg d st with
  | .error e => .error e
  | .ok s0 =>
    match afterIters ext d.objType cfg.inertialDiscount s0 cfg.maxIterations.toNat with
    | .error e => .error e
    | .ok s =>
      .ok (⟨s.uBest.fitness, s.uBest.position, getCustomerAssignments ext d s.uBest,
            d.type, d.objType⟩,
           ⟨s.swarm, s.inertia⟩)

/-- Model of `NDPSO::calcObjective(facilities)`: derive the customer assignment via
`AssignmentStrategy::assign(costs, facilities, type)`, then score it via
`ObjectiveStrategy::calcObjective(costs, customerAssignments, type)` — both
call sites pass `this->data.type`. -/
def calcObjective (ext : Externals) (d : ProblemData) (facilities : List ℤ) : ℤ :=
  ext.objS d.costs (ext.assignS d.costs facilities d.type) d.type

/-- Discriminator: did `getGlobalBest` signal a descriptive (thrown)
configuration error, as opposed to returning a particle or hitting the
undefined past-the-end dereference? -/
def isConfigError : Except GBErr Particle → Bool
  | .error (.configError _) => true
  | _ => false

/-! ## Concrete instances used by the witnesses and counterexamples -/

/-- Concrete swarm for the C10 witness: the extremal fitness is shared, and
the first sharer must be returned. -/
def swarmW : List Particle :=
  [⟨[0], 3⟩, ⟨[1], 1⟩, ⟨[2], 1⟩, ⟨[3], 3⟩]

/-- Concrete external collaborators for witnesses: the particle update is the
identity, the particle constructor yields a fixed particle of fitness 7, the
assignment strategy returns the facility list reversed, and the objective
strategy counts the assignment's length. -/
def extW : Externals where
  upd := fun _ _ _ _ p => p
  mkP := fun _ _ _ => ⟨[0], 7⟩
  assignS := fun _ facs _ => facs.reverse
  objS := fun _ a _ => (a.length : ℤ)

/-- Concrete configuration for witnesses: all coefficients 1, one particle,
one iteration. -/
def cfgW : Cfg := ⟨1, 1, 1, 1, 1, 1⟩

/-- Concrete configuration with `maxIterations = 0` (for the C9 witness). -/
def cfgW0 : Cfg := ⟨1, 1, 1, 1, 1, 0⟩

/-- Concrete problem data for witnesses. -/
def dW : ProblemData := ⟨[], 1, 1, .typeA, .MINIMIZE, "w"⟩

/-- Concrete problem data for witnesses, MAXIMIZE direction. -/
def dWmax : ProblemData := ⟨[], 1, 1, .typeA, .MAXIMIZE, "w"⟩

/-- The state reached by `startState extW cfgW dW` from an empty prior
swarm. -/
def sW : IterState := ⟨[⟨[0], 7⟩], 1, ⟨[0], 7⟩, ⟨[0], 7⟩⟩

/-- The state after one iteration from `sW` (the inertia field is the
unreduced product the step computes). -/
def sW1 : IterState := ⟨[⟨[0], 7⟩], 1 * 1, ⟨[0], 7⟩, ⟨[0], 7⟩⟩

/-- Concrete externals for the C5 counterexample: the assignment strategy
ignores the problem type, the objective strategy distinguishes it. -/
def extC : Externals where
  upd := fun _ _ _ _ p => p
  mkP := fun _ _ _ => ⟨[0], 7⟩
  assignS := fun _ _ _ => []
  objS := fun _ _ t => if t = PType.typeA then 0 else 1

/-- Problem data of variant `typeA` (C5 counterexample). -/
def dA : ProblemData := ⟨[], 0, 0, .typeA, .MINIMIZE, "p"⟩

/-- Problem data identical to `dA` except for the problem variant
(`typeB`): same costs, same `objType`. -/
def dB : ProblemData := ⟨[], 0, 0, .typeB, .MINIMIZE, "p"⟩

/-! ## Lemmas about the selection fold -/

/-- The `min_element`/`max_element` fold either keeps the start value (when no
element is strictly better) or lands on an element that is strictly better
than the start and all elements before it, and not bettered by any element
after it — the first extremal element.  `hmix` and `htr` are the two
transitivity shapes of a strict order that the proof needs. -/
theorem selBy_foldl_spec (better : Particle → Particle → Bool)
    (hmix : ∀ a b c, better a b = true → better c b = false → better a c = true)
    (htr : ∀ a b c, better a b = true → better b c = true → better a c = true) :
    ∀ (xs : List Particle) (acc r : Particle),
      xs.foldl (fun best y => if better y best then y else best) acc = r →
      (r = acc ∧ ∀ y ∈ xs, better y acc = false)
      ∨ (∃ l1 l2, xs = l1 ++ r :: l2 ∧ better r acc = true
          ∧ (∀ q ∈ l1, better r q = true) ∧ (∀ q ∈ l2, better q r = false)) := by
  intro xs
  induction xs with
  | nil =>
    intro acc r h
    exact Or.inl ⟨h.symm, by simp⟩
  | cons y ys ih =>
    intro acc r h
    simp only [List.foldl_cons] at h
    by_cases hb : better y acc = true
    · rw [if_pos hb] at h
      rcases ih y r h with ⟨hr, hall⟩ | ⟨l1, l2, hsplit, hry, hl1, hl2⟩
      · subst hr
        exact Or.inr ⟨[], ys, by simp, hb, by simp, hall⟩
      · refine Or.inr ⟨y :: l1, l2, by simp [hsplit], htr r y acc hry hb, ?_, hl2⟩
        intro q hq
        rcases List.mem_cons.mp hq with hq | hq
        · exact hq ▸ hry
        · exact hl1 q hq
    · have hb' : better y acc = false := by
        simpa using hb
      rw [if_neg hb] at h
      rcases ih acc r h with ⟨hr, hall⟩ | ⟨l1, l2, hsplit, hracc, hl1, hl2⟩
      · refine Or.inl ⟨hr, ?_⟩
        intro q hq
        rcases List.mem_cons.mp hq with hq | hq
        · exact hq ▸ hb'
        · exact hall q hq
      · refine Or.inr ⟨y :: l1, l2, by simp [hsplit], hracc, ?_, hl2⟩
        intro q hq
        rcases List.mem_cons.mp hq with hq | hq
        · exact hq ▸ hmix r acc y hracc hb'
        · exact hl1 q hq

end NDPSO

namespace NDPSO

/-- Claim C6: when global-best selection is invoked with an `objType` that is
neither MINIMIZE nor MAXIMIZE, it fails with the thrown configuration-error
message, for every swarm — it never falls through to either comparison
direction. -/
theorem C6_unrecognized_objType_throws (s : List Particle) :
    getGlobalBest .UNRECOGNIZED s =
      .error (.configError "NDPSO::getGlobalBest(): unrecognized this->data.objType!") :=
  rfl

/-- Claim C7, counterexample: on an empty swarm, `getGlobalBest` does NOT fail
with a descriptive error: `min_element` over the empty range returns the
past-the-end iterator and the code dereferences it — undefined behavior, not
a thrown message. -/
theorem C7_counterexample :
    isConfigError (getGlobalBest .MINIMIZE []) = false
    ∧ isConfigError (getGlobalBest .MAXIMIZE []) = false
    ∧ getGlobalBest .MINIMIZE [] = .error .pastTheEndDeref :=
  ⟨rfl, rfl, rfl⟩

/-- Claim C7 as amended: if global-best selection is invoked while the swarm
is empty (under either recognized objective direction), the code performs no
emptiness check and raises no descriptive error; `min_element`/`max_element`
return the past-the-end iterator and its dereference is undefined behavior,
modelled as the distinguished `pastTheEndDeref` outcome. -/
theorem C7_empty_swarm_undefined :
    getGlobalBest .MINIMIZE [] = .error .pastTheEndDeref
    ∧ getGlobalBest .MAXIMIZE [] = .error .pastTheEndDeref :=
  ⟨rfl, rfl⟩

/-- Claim C10: for every non-empty swarm, `getGlobalBest` returns (a copy of)
the FIRST particle of minimal fitness under MINIMIZE and the FIRST particle of
maximal fitness under MAXIMIZE: the swarm splits as `l1 ++ p :: l2` with every
particle before `p` strictly worse and no particle anywhere strictly better. -/
theorem C10_first_extremal_tiebreak (s : List Particle) (p : Particle) :
    (getGlobalBest .MINIMIZE s = .ok p →
      ∃ l1 l2, s = l1 ++ p :: l2 ∧ (∀ q ∈ l1, p.fitness < q.fitness)
        ∧ ∀ q ∈ s, p.fitness ≤ q.fitness)
    ∧ (getGlobalBest .MAXIMIZE s = .ok p →
      ∃ l1 l2, s = l1 ++ p :: l2 ∧ (∀ q ∈ l1, q.fitness < p.fitness)
        ∧ ∀ q ∈ s, q.fitness ≤ p.fitness) := by
  constructor
  · intro h
    match s with
    | [] => simp [getGlobalBest, selBy] at h
    | x :: xs =>
      simp only [getGlobalBest, selBy] at h
      have hfold : xs.foldl (fun best y => if minFitness y best then y else best) x = p := by
        cases h; rfl
      have hspec := selBy_foldl_spec (fun y b => minFitness y b)
        (by intro a b c hab hcb; simp only [minFitness, decide_eq_true_eq,
              decide_eq_false_iff_not, not_lt] at *; omega)
        (by intro a b c hab hbc; simp only [minFitness, decide_eq_true_eq] at *; omega)
        xs x p hfold
      rcases hspec with ⟨hr, hall⟩ | ⟨l1, l2, hsplit, hracc, hl1, hl2⟩
      · subst hr
        refine ⟨[], xs, by simp, by simp, ?_⟩
        intro q hq
        rcases List.mem_cons.mp hq with hq | hq
        · exact hq ▸ le_refl _
        · have := hall q hq
          simp only [minFitness, decide_eq_false_iff_not, not_lt] at this
          exact this
      · refine ⟨x :: l1, l2, by simp [hsplit], ?_, ?_⟩
        · intro q hq
          rcases List.mem_cons.mp hq with hq | hq
          · subst hq
            simpa [minFitness] using hracc
          · simpa [minFitness] using hl1 q hq
        · intro q hq
          rcases List.mem_cons.mp hq with hq | hq
          · subst hq
            have : p.fitness < q.fitness := by simpa [minFitness] using hracc
            exact le_of_lt this
          · rw [hsplit] at hq
            rcases List.mem_append.mp hq with hq | hq
            · exact le_of_lt (by simpa [minFitness] using hl1 q hq)
            · rcases List.mem_cons.mp hq with hq | hq
              · exact hq ▸ le_refl _
              · have := hl2 q hq
                simp only [minFitness, decide_eq_false_iff_not, not_lt] at this
                exact this
  · intro h
    match s with
    | [] => simp [getGlobalBest, selBy] at h
    | x :: xs =>
      simp only [getGlobalBest, selBy] at h
      have hfold : xs.foldl (fun best y => if minFitness best y then y else best) x = p := by
        cases h; rfl
      have hspec := selBy_foldl_spec (fun y b => minFitness b y)
        (by intro a b c hab hcb; simp only [minFitness, decide_eq_true_eq,
              decide_eq_false_iff_not, not_lt] at *; omega)
        (by intro a b c hab hbc; simp only [minFitness, decide_eq_true_eq] at *; omega)
        xs x p hfold
      rcases hspec with ⟨hr, hall⟩ | ⟨l1, l2, hsplit, hracc, hl1, hl2⟩
      · subst hr
        refine ⟨[], xs, by simp, by simp, ?_⟩
        intro q hq
        rcases List.mem_cons.mp hq with hq | hq
        · exact hq ▸ le_refl _
        · have := hall q hq
          simp only [minFitness, decide_eq_false_iff_not, not_lt] at this
          exact this
      · refine ⟨x :: l1, l2, by simp [hsplit], ?_, ?_⟩
        · intro q hq
          rcases List.mem_cons.mp hq with hq | hq
          · subst hq
            simpa [minFitness] using hracc
          · simpa [minFitness] using hl1 q hq
        · intro q hq
          rcases List.mem_cons.mp hq with hq | hq
          · subst hq
            have : q.fitness < p.fitness := by simpa [minFitness] using hracc
            exact le_of_lt this
          · rw [hsplit] at hq
            rcases List.mem_append.mp hq with hq | hq
            · exact le_of_lt (by simpa [minFitness] using hl1 q hq)
            · rcases List.mem_cons.mp hq with hq | hq
              · exact hq ▸ le_refl _
              · have := hl2 q hq
                simp only [minFitness, decide_eq_false_iff_not, not_lt] at this
                exact this

/-- Witness for C10: on `swarmW` (fitnesses 3, 1, 1, 3), MINIMIZE returns the
first particle of fitness 1 and MAXIMIZE the first particle of fitness 3. -/
theorem C10_first_extremal_tiebreak_witness :
    (∃ l1 l2, swarmW = l1 ++ (⟨[1], 1⟩ : Particle) :: l2
      ∧ (∀ q ∈ l1, (1 : ℤ) < q.fitness)
      ∧ ∀ q ∈ swarmW, (1 : ℤ) ≤ q.fitness)
    ∧ (∃ l1 l2, swarmW = l1 ++ (⟨[0], 3⟩ : Particle) :: l2
      ∧ (∀ q ∈ l1, q.fitness < 3)
      ∧ ∀ q ∈ swarmW, q.fitness ≤ 3) :=
  ⟨(C10_first_extremal_tiebreak swarmW ⟨[1], 1⟩).1 rfl,
   (C10_first_extremal_tiebreak swarmW ⟨[0], 3⟩).2 rfl⟩

/-! ## Lemmas about the iteration loop -/

/-- Inversion of one successful loop iteration: the new inertia is the old one
times the discount (computed before the updates), the new swarm is the old one
mapped through `Particle::update` at that already-discounted inertia against
the old `gBest` snapshot, and the new `uBest` is the comparator-selected one
of the new `gBest` and the old `uBest`. -/
theorem stepIter_ok_fields {ext : Externals} {t : ObjType} {disc : ℚ} {k : ℕ}
    {s s' : IterState} (h : stepIter ext t disc k s = .ok s') :
    s'.inertia = s.inertia * disc
    ∧ s'.swarm = mapWithIdx (fun j p => ext.upd k j (s.inertia * disc) s.gBest p) 0 s.swarm
    ∧ s'.uBest = (if prefers t s'.gBest.fitness s.uBest.fitness then s'.gBest else s.uBest) := by
  unfold stepIter at h
  dsimp only at h
  cases hg : getGlobalBest t (mapWithIdx (fun j p => ext.upd k j (s.inertia * disc) s.gBest p) 0 s.swarm) with
  | ok g =>
    rw [hg] at h
    cases h
    simp
  | error e =>
    rw [hg] at h
    cases h

/-- Inversion of a successful run of `k + 1` iterations: the first `k`
succeeded and one more step leads from their state to the final one. -/
theorem afterIters_succ_ok {ext : Externals} {t : ObjType} {disc : ℚ}
    {s0 : IterState} {k : ℕ} {s' : IterState}
    (h : afterIters ext t disc s0 (k + 1) = .ok s') :
    ∃ s, afterIters ext t disc s0 k = .ok s ∧ stepIter ext t disc (k + 1) s = .ok s' := by
  unfold afterIters at h
  cases hk : afterIters ext t disc s0 k with
  | ok s =>
    rw [hk] at h
    exact ⟨s, rfl, h⟩
  | error e =>
    rw [hk] at h
    cases h

/-- After `k` successful iterations the inertia is the start inertia times the
`k`-th power of the discount. -/
theorem afterIters_inertia {ext : Externals} {t : ObjType} {disc : ℚ}
    {s0 : IterState} :
    ∀ {k : ℕ} {s : IterState}, afterIters ext t disc s0 k = .ok s →
      s.inertia = s0.inertia * disc ^ k := by
  intro k
  induction k with
  | zero =>
    intro s h
    cases h
    simp
  | succ k ih =>
    intro s h
    rcases afterIters_succ_ok h with ⟨s1, hk, hstep⟩
    have h1 := ih hk
    have h2 := (stepIter_ok_fields hstep).1
    rw [h2, h1, pow_succ, mul_assoc]

/-- The state produced by the setup phase carries the initialized swarm, the
reset inertia `initialInertia`, and the initial global best as both `gBest`
and `uBest`. -/
theorem startState_ok_fields {ext : Externals} {cfg : Cfg} {d : ProblemData}
    {st : NDState} {s0 : IterState}
    (h : startState ext cfg d st = .ok s0) :
    s0.swarm = initSwarm ext cfg d st.swarm
    ∧ s0.inertia = cfg.initialInertia
    ∧ getGlobalBest d.objType (initSwarm ext cfg d st.swarm) = .ok s0.gBest
    ∧ s0.uBest = s0.gBest := by
  unfold startState at h
  dsimp only at h
  cases hg : getGlobalBest d.objType (initSwarm ext cfg d st.swarm) with
  | ok g =>
    rw [hg] at h
    cases h
    simp [hg]
  | error e =>
    rw [hg] at h
    cases h

/-- Claim C2: in every `optimize` call, the inertia is reset to
`initialInertia` before any decay, and the decay multiplication happens before
the particle updates of each iteration: (i) the whole call is independent of
whatever inertia value earlier calls left behind, (ii) after `k` iterations
the inertia equals `initialInertia * inertialDiscount ^ k`, and (iii) the
updates of iteration `k + 1` are invoked with inertia
`initialInertia * inertialDiscount ^ (k + 1)`. -/
theorem C2_inertia_reset_then_decay (ext : Externals) (cfg : Cfg) (d : ProblemData)
    (sw : List Particle) (x y : ℚ) (k : ℕ) (s0 s s' : IterState)
    (h0 : startState ext cfg d ⟨sw, x⟩ = .ok s0)
    (hk : afterIters ext d.objType cfg.inertialDiscount s0 k = .ok s)
    (hk1 : afterIters ext d.objType cfg.inertialDiscount s0 (k + 1) = .ok s') :
    optimize ext cfg ⟨sw, x⟩ d = optimize ext cfg ⟨sw, y⟩ d
    ∧ s.inertia = cfg.initialInertia * cfg.inertialDiscount ^ k
    ∧ s'.swarm = mapWithIdx
        (fun j p => ext.upd (k + 1) j
          (cfg.initialInertia * cfg.inertialDiscount ^ (k + 1)) s.gBest p) 0 s.swarm := by
  have hks : s.inertia = cfg.initialInertia * cfg.inertialDiscount ^ k := by
    rw [afterIters_inertia hk, (startState_ok_fields h0).2.1]
  refine ⟨rfl, hks, ?_⟩
  rcases afterIters_succ_ok hk1 with ⟨s1, hk', hstep⟩
  rw [hk] at hk'
  cases hk'
  have := (stepIter_ok_fields hstep).2.1
  rw [this, hks, pow_succ, mul_assoc]

/-- Witness for C2: a concrete one-particle run (identity updates, all
coefficients 1). -/
theorem C2_inertia_reset_then_decay_witness :
    optimize extW cfgW ⟨[], 0⟩ dW = optimize extW cfgW ⟨[], 5⟩ dW
    ∧ sW.inertia = cfgW.initialInertia * cfgW.inertialDiscount ^ 0
    ∧ sW1.swarm = mapWithIdx
        (fun j p => extW.upd (0 + 1) j
          (cfgW.initialInertia * cfgW.inertialDiscount ^ (0 + 1)) sW.gBest p) 0 sW.swarm :=
  C2_inertia_reset_then_decay extW cfgW dW [] 0 5 0 sW sW sW1 rfl rfl rfl

/-- Claim C3: within one `optimize` run the all-time best `uBest.fitness` is
monotone under the active comparator: one more iteration never makes it
strictly worse — non-increasing under MINIMIZE, non-decreasing under
MAXIMIZE. -/
theorem C3_uBest_monotone (ext : Externals) (disc : ℚ) (s0 : IterState) (k : ℕ) :
    (∀ s s', afterIters ext .MINIMIZE disc s0 k = .ok s →
      afterIters ext .MINIMIZE disc s0 (k + 1) = .ok s' →
      s'.uBest.fitness ≤ s.uBest.fitness)
    ∧ (∀ s s', afterIters ext .MAXIMIZE disc s0 k = .ok s →
      afterIters ext .MAXIMIZE disc s0 (k + 1) = .ok s' →
      s.uBest.fitness ≤ s'.uBest.fitness) := by
  constructor
  · intro s s' hk hk1
    rcases afterIters_succ_ok hk1 with ⟨s1, hk', hstep⟩
    rw [hk] at hk'
    cases hk'
    have hu := (stepIter_ok_fields hstep).2.2
    by_cases hp : prefers .MINIMIZE s'.gBest.fitness s.uBest.fitness = true
    · rw [hu, if_pos hp]
      have : s'.gBest.fitness < s.uBest.fitness := by
        simpa [prefers] using hp
      exact le_of_lt this
    · rw [hu, if_neg hp]
  · intro s s' hk hk1
    rcases afterIters_succ_ok hk1 with ⟨s1, hk', hstep⟩
    rw [hk] at hk'
    cases hk'
    have hu := (stepIter_ok_fields hstep).2.2
    by_cases hp : prefers .MAXIMIZE s'.gBest.fitness s.uBest.fitness = true
    · rw [hu, if_pos hp]
      have : s.uBest.fitness < s'.gBest.fitness := by
        simpa [prefers] using hp
      exact le_of_lt this
    · rw [hu, if_neg hp]

/-- Witness for C3: the concrete one-particle run, in both directions. -/
theorem C3_uBest_monotone_witness :
    sW1.uBest.fitness ≤ sW.uBest.fitness
    ∧ sW.uBest.fitness ≤ sW1.uBest.fitness :=
  ⟨(C3_uBest_monotone extW 1 sW 0).1 sW sW1 rfl rfl,
   (C3_uBest_monotone extW 1 sW 0).2 sW sW1 rfl rfl⟩

/-- Claim C9: `maxIterations = 0` is not an error: the loop body never runs
and the returned `ProblemResults` carries the fitness, position, and
(recomputed) assignment of the globally best particle of the freshly
initialized swarm. -/
theorem C9_zero_iterations_ok (ext : Externals) (cfg : Cfg) (st : NDState)
    (d : ProblemData) (g : Particle)
    (hmax : cfg.maxIterations = 0)
    (hg : getGlobalBest d.objType (initSwarm ext cfg d st.swarm) = .ok g) :
    optimize ext cfg st d =
      .ok (⟨g.fitness, g.position, ext.assignS d.costs g.position d.type, d.type, d.objType⟩,
           ⟨initSwarm ext cfg d st.swarm, cfg.initialInertia⟩) := by
  unfold optimize startState
  dsimp only
  rw [hmax, hg]
  simp [afterIters, getCustomerAssignments]

/-- Witness for C9: the concrete configuration with `maxIterations = 0`. -/
theorem C9_zero_iterations_ok_witness :
    optimize extW cfgW0 ⟨[], 0⟩ dW =
      .ok (⟨7, [0], extW.assignS dW.costs [0] dW.type, dW.type, dW.objType⟩,
           ⟨initSwarm extW cfgW0 dW [], cfgW0.initialInertia⟩) :=
  C9_zero_iterations_ok extW cfgW0 ⟨[], 0⟩ dW ⟨[0], 7⟩ rfl rfl

/-- Claim C4: for every completed `optimize` run, the `customerAssignments`
field of the returned `ProblemResults` is the assignment strategy's result
recomputed from the returned best position (`uBest.position`) and the
problem's `type` — not a value cached during the run (particles cache no
assignments in this engine). -/
theorem C4_assignments_recomputed (ext : Externals) (cfg : Cfg) (st : NDState)
    (d : ProblemData) (res : ProblemResults) (st' : NDState)
    (h : optimize ext cfg st d = .ok (res, st')) :
    res.customerAssignments = ext.assignS d.costs res.position d.type := by
  unfold optimize at h
  cases h0 : startState ext cfg d st with
  | error e =>
    rw [h0] at h
    cases h
  | ok s0 =>
    rw [h0] at h
    dsimp only at h
    cases hA : afterIters ext d.objType cfg.inertialDiscount s0 cfg.maxIterations.toNat with
    | error e =>
      rw [hA] at h
      cases h
    | ok s =>
      rw [hA] at h
      cases h
      simp [getCustomerAssignments]

/-- Witness for C4: the concrete zero-iteration run; the reversed-position
assignment strategy shows the field is recomputed from the position. -/
theorem C4_assignments_recomputed_witness :
    (⟨7, [0], [0], dW.type, dW.objType⟩ : ProblemResults).customerAssignments
      = extW.assignS dW.costs [0] dW.type :=
  C4_assignments_recomputed extW cfgW0 ⟨[], 0⟩ dW
    ⟨7, [0], [0], dW.type, dW.objType⟩ ⟨[⟨[0], 7⟩], 1⟩ rfl

/-- Claim C5, counterexample: `calcObjective` is NOT the composition scored
with the problem's `objType`: `NDPSO.cpp` line 188 passes `this->data.type`
(the problem variant) as the objective strategy's third argument.  Here `dA`
and `dB` agree on costs, on `objType`, and on the derived assignment, yet
`calcObjective` differs — so its value is not a function of
`(costs, assignment, objType)` as the claim states. -/
theorem C5_counterexample :
    dA.costs = dB.costs ∧ dA.objType = dB.objType
    ∧ extC.assignS dA.costs [] dA.type = extC.assignS dB.costs [] dB.type
    ∧ calcObjective extC dA [] ≠ calcObjective extC dB [] := by
  refine ⟨rfl, rfl, rfl, ?_⟩
  decide

/-- Claim C5 as amended: `calcObjective(facilities)` first derives the
customer assignment via `AssignmentStrategy.assign(costs, facilities, type)`
and then scores it via `ObjectiveStrategy.calcObjective` called with the
problem's `type` (the problem variant, NOT `objType`); it is a pure function
of `(costs, facilities, type)` alone — in particular, independent of
everything else in the problem data, `objType` included. -/
theorem C5_composition_scored_with_type (ext : Externals) (d d' : ProblemData)
    (facilities : List ℤ) :
    calcObjective ext d facilities
      = ext.objS d.costs (ext.assignS d.costs facilities d.type) d.type
    ∧ (d.costs = d'.costs → d.type = d'.type →
        calcObjective ext d facilities = calcObjective ext d' facilities) := by
  refine ⟨rfl, ?_⟩
  intro hc ht
  unfold calcObjective
  rw [hc, ht]

/-- Witness for C5 (amended): `dA` and `dAlike` share costs and type but
nothing else, and score identically. -/
theorem C5_composition_scored_with_type_witness :
    calcObjective extC dA []
      = extC.objS dA.costs (extC.assignS dA.costs [] dA.type) dA.type
    ∧ calcObjective extC dA [] = calcObjective extC ⟨[], 5, 6, .typeA, .MAXIMIZE, "q"⟩ [] :=
  ⟨(C5_composition_scored_with_type extC dA ⟨[], 5, 6, .typeA, .MAXIMIZE, "q"⟩ []).1,
   (C5_composition_scored_with_type extC dA ⟨[], 5, 6, .typeA, .MAXIMIZE, "q"⟩ []).2 rfl rfl⟩

/-- Claim C8: `initSwarm` discards any pre-existing swarm and constructs
exactly `swarmSize` particles (for the meaningful non-negative sizes; the spec
calls non-positive sizes a precondition violation), each dimensioned to
`numFacilities` with per-dimension domain `{0, …, numCustomers − 1}` — the
shape contract of the external `Particle(numDimensions, possibleFacs, this)`
constructor, taken as the hypothesis `hmk`.  The result is the same whatever
swarm the previous run left behind. -/
theorem C8_initSwarm_size_and_shape (ext : Externals) (cfg : Cfg) (d : ProblemData)
    (old old' : List Particle)
    (hsz : 0 ≤ cfg.swarmSize)
    (hmk : ∀ i, (ext.mkP d.numFacilities d.numCustomers i).position.length = d.numFacilities
      ∧ ∀ v ∈ (ext.mkP d.numFacilities d.numCustomers i).position,
          0 ≤ v ∧ v < (d.numCustomers : ℤ)) :
    ((initSwarm ext cfg d old).length : ℤ) = cfg.swarmSize
    ∧ initSwarm ext cfg d old = initSwarm ext cfg d old'
    ∧ ∀ p ∈ initSwarm ext cfg d old,
        p.position.length = d.numFacilities
        ∧ ∀ v ∈ p.position, 0 ≤ v ∧ v < (d.numCustomers : ℤ) := by
  have hclear : ∀ l : List Particle,
      (if 0 < l.length then ([] : List Particle) else l) = [] := by
    intro l
    cases l with
    | nil => simp
    | cons a as => simp
  refine ⟨?_, ?_, ?_⟩
  · simp [initSwarm, hclear, Int.toNat_of_nonneg hsz]
  · simp [initSwarm, hclear]
  · intro p hp
    simp only [initSwarm, hclear, List.nil_append, List.mem_map, List.mem_range] at hp
    rcases hp with ⟨i, _, hi⟩
    rcases hmk i with ⟨hlen, hdom⟩
    rw [hi] at hlen hdom
    exact ⟨hlen, hdom⟩

/-- Witness for C8: the concrete one-particle configuration, with an empty
and a non-empty previous swarm. -/
theorem C8_initSwarm_size_and_shape_witness :
    ((initSwarm extW cfgW dW []).length : ℤ) = cfgW.swarmSize
    ∧ initSwarm extW cfgW dW [] = initSwarm extW cfgW dW [⟨[9], 9⟩]
    ∧ ∀ p ∈ initSwarm extW cfgW dW [],
        p.position.length = dW.numFacilities
        ∧ ∀ v ∈ p.position, 0 ≤ v ∧ v < (dW.numCustomers : ℤ) :=
  C8_initSwarm_size_and_shape extW cfgW dW [] [⟨[9], 9⟩] (by decide)
    (by
      intro i
      refine ⟨rfl, ?_⟩
      intro v hv
      have hv0 : v = 0 := by simpa [extW] using hv
      subst hv0
      exact ⟨le_refl 0, by decide⟩)

set_option maxRecDepth 40000 in
/-- Claim C1: the three `for (float c = 0.1; c <= 0.9; c += 0.2)` loops of
`searchParameters` each visit exactly the five binary32 values of
0.1, 0.3, 0.5, 0.7, 0.9 (the float accumulation neither skips nor duplicates
the boundary), so `optimize` is invoked exactly 125 × 10 = 1250 times: the
trace of coefficient triples is the 125-point grid, each grid point set once
(the 125 triples are pairwise distinct as dyadic values) and followed by
exactly 10 trial invocations. -/
theorem C1_sweep_125_by_10 :
    searchParametersTrace = grid125.flatMap (List.replicate 10)
    ∧ searchParametersTrace.length = 1250
    ∧ grid125.length = 125
    ∧ (grid125.map norm3).Nodup := by
  have hAV : axisVals = vals5 := by decide
  have hV : vals5 = [⟨13421773, -27⟩, ⟨10066330, -25⟩, ⟨8388608, -24⟩,
      ⟨11744051, -24⟩, ⟨15099494, -24⟩] := by decide
  have hmain : searchParametersTrace = grid125.flatMap (List.replicate 10) := by
    unfold searchParametersTrace grid125
    rw [hAV]
    simp only [List.flatMap_assoc, List.flatMap_map]
  have hlen125 : grid125.length = 125 := by
    unfold grid125
    rw [hV]
    decide
  refine ⟨hmain, ?_, hlen125, ?_⟩
  · rw [hmain, List.length_flatMap]
    have : (List.length ∘ List.replicate 10 : Dy × Dy × Dy → ℕ) = fun _ => 10 := by
      funext t
      simp
    rw [this, List.map_const', List.sum_replicate, hlen125]
    norm_num
  · unfold grid125
    rw [hV]
    decide

end NDPSO
